import Mathlib

/-!
Shallow embedding of the `redis-utils` library (files `src/pool.ts`,
`src/cache.ts`, `src/utils.ts`) and verification of its specification.

The embedding models:
* the key-value store reachable through the pool as a function
  `String → Option String` together with failure-injection fields that say
  whether a `get` / `set` / `del` issued through the pool rejects;
* the redis client commands that `RedisPool` constructs (`ClientCmd`),
  in particular the `SET` / `SET .. EX ..` choice made by `RedisPool.set`;
* the command executor `RedisPool.exec` as the trace of acquire / release /
  settle events it performs for a command outcome delivered via callback;
* `RedisPool.healthcheck` with explicit acquisition/ping outcomes;
* the connection factory `create` of `createNewPool` as a fold over the
  transport's event stream, with promise single-settlement semantics;
* `RedisCache` (`get`, `set`, `invalidate`, `proxy`) over a configuration
  carrying the serializers, the passthrough and JS truthiness for the
  value type;
* `formatDuration` of `utils.ts`, including a decimal model of
  `Number.prototype.toPrecision(6)` for the millisecond part.
-/

/-- JS-style outcome check: `true` exactly on `Except.error`. -/
def excIsErr {ε α : Type} : Except ε α → Bool
  | .error _ => true
  | .ok _ => false

/-- The commands `RedisPool` issues on an acquired client (`pool.ts`). -/
inductive ClientCmd where
  | ping (message : String)
  | getCmd (key : String)
  | setPlain (key value : String)
  | setEx (key value : String) (expiration : Nat)
  | delCmd (keys : List String)
  | hmsetCmd (key : String) (values : List String)
  | hgetall (key : String)
  | multiCmd (commands : List (List String))
  | batchCmd (commands : List (List String))
  deriving DecidableEq, Repr

/-- `RedisPool.ping`: `client.ping(message || 'ping', callback)` — a falsy
(absent or empty) message is replaced by `"ping"`. -/
def RedisPool.pingCmd (message : Option String) : ClientCmd :=
  match message with
  | some m => if m = "" then .ping "ping" else .ping m
  | none => .ping "ping"

/-- `RedisPool.set`: `if (expiration) client.set(key, value, 'EX', expiration, cb)
else client.set(key, value, cb)` — a falsy (absent or zero) expiration issues a
plain `SET` with no `EX` argument. -/
def RedisPool.setCmd (key value : String) (expiration : Option Nat) : ClientCmd :=
  match expiration with
  | some n => if n = 0 then .setPlain key value else .setEx key value n
  | none => .setPlain key value

/-- The contents of the backing store, as visible through `GET`. -/
def Store : Type := String → Option String

/-- State of the store together with injected failures for the pool
operations the cache uses: `none` means the operation succeeds, `some e`
means the underlying command rejects with error `e`. -/
structure PoolEnv where
  store : Store
  getFails : Option String
  setFails : Option String
  delFails : Option String

/-- `RedisPool.get key`: either rejects, or resolves with the stored value
(`null` for an absent key). -/
def RedisPool.getRes (env : PoolEnv) (key : String) : Except String (Option String) :=
  match env.getFails with
  | some e => .error e
  | none => .ok (env.store key)

/-- `RedisPool.set key value`: either rejects, or stores the value. -/
def RedisPool.setRes (env : PoolEnv) (key value : String) : Except String PoolEnv :=
  match env.setFails with
  | some e => .error e
  | none => .ok { env with store := fun k => if k = key then some value else env.store k }

/-- `RedisPool.del keys`: either rejects, or deletes exactly the listed keys. -/
def RedisPool.delRes (env : PoolEnv) (keys : List String) : Except String PoolEnv :=
  match env.delFails with
  | some e => .error e
  | none => .ok { env with store := fun k => if k ∈ keys then none else env.store k }

/-- Configuration of a `RedisCache` (`CacheOptions` in `cache.ts`): TTL
(possibly `undefined`), key/value serializers, deserializer and the wrapped
passthrough.  `serializeValue` and `passthrough` may throw, producing an
`Except.error`.  `truthy` embeds JS truthiness for the value type `T`
(needed by the `if (fromCache)` test in `proxy`). -/
structure CacheCfg (T Params : Type) where
  ttl : Option Nat
  serializeKey : Params → String
  serializeValue : T → Except String String
  deserializeValue : String → T
  truthy : T → Bool
  passthrough : Params → Except String T

/-- `RedisCache.get`: `const result = await this.pool.get(key); if (result)
return this.deserializeValue(result);` — a rejected `pool.get` propagates;
a falsy raw value (absent key or empty string) yields `undefined`
(modelled `none`); otherwise the deserialized value is returned. -/
def RedisCache.get {T Params : Type} (cfg : CacheCfg T Params) (env : PoolEnv)
    (key : String) : Except String (Option T) :=
  match RedisPool.getRes env key with
  | .error e => .error e
  | .ok result =>
    match result with
    | some s => if s = "" then .ok none else .ok (some (cfg.deserializeValue s))
    | none => .ok none

/-- The warning message logged by `RedisCache.set` when the write-back fails
(spelling as in the source). -/
def cacheSetWarning : String := "Error occured while updating a value in cache"

/-- `RedisCache.set`: serialize the value and `await this.pool.set(key,
serialized, this.ttl)` inside `try { .. } catch { logger.warn(..) }` — every
failure (of serialization or of the store write) is logged as a warning and
swallowed.  Returns the resulting environment, the warnings logged, and the
client command that was issued (if serialization got that far). -/
def RedisCache.set {T Params : Type} (cfg : CacheCfg T Params) (env : PoolEnv)
    (key : String) (value : T) : PoolEnv × List String × Option ClientCmd :=
  match cfg.serializeValue value with
  | .error _ => (env, [cacheSetWarning], none)
  | .ok serialized =>
    let cmd := RedisPool.setCmd key serialized cfg.ttl
    match RedisPool.setRes env key serialized with
    | .error _ => (env, [cacheSetWarning], some cmd)
    | .ok env' => (env', [], some cmd)

/-- `RedisCache.invalidate`: derive the key, `await this.pool.del([ key ])`;
a rejection of the delete propagates.  Returns the outcome, the resulting
environment, and the command issued. -/
def RedisCache.invalidate {T Params : Type} (cfg : CacheCfg T Params) (env : PoolEnv)
    (params : Params) : Except String Unit × PoolEnv × ClientCmd :=
  let key := cfg.serializeKey params
  match RedisPool.delRes env [key] with
  | .error e => (.error e, env, .delCmd [key])
  | .ok env' => (.ok (), env', .delCmd [key])

/-- Observable outcome of one `proxy` call: the delivered result, how many
times the passthrough ran, the environment after the (detached) write-back
has completed, and the warnings logged. -/
structure ProxyOut (T : Type) where
  result : Except String T
  passthroughCalls : Nat
  env : PoolEnv
  warnings : List String

/-- The miss path of `proxy`: invoke the passthrough (a rejection
propagates), then fire the write-back `this.set(key, value)` without
awaiting it, and return the passthrough's value. -/
def RedisCache.missPath {T Params : Type} (cfg : CacheCfg T Params) (env : PoolEnv)
    (params : Params) (key : String) : ProxyOut T :=
  match cfg.passthrough params with
  | .error e => ⟨.error e, 1, env, []⟩
  | .ok value =>
    let w := RedisCache.set cfg env key value
    ⟨.ok value, 1, w.1, w.2.1⟩

/-- `RedisCache.proxy`: derive the key, `await this.get(key)` (a rejection
propagates and aborts the call before the passthrough), return the cached
value if it is truthy (`if (fromCache)`), otherwise take the miss path. -/
def RedisCache.proxy {T Params : Type} (cfg : CacheCfg T Params) (env : PoolEnv)
    (params : Params) : ProxyOut T :=
  let key := cfg.serializeKey params
  match RedisCache.get cfg env key with
  | .error e => ⟨.error e, 0, env, []⟩
  | .ok fromCache =>
    match fromCache with
    | some v => if cfg.truthy v then ⟨.ok v, 0, env, []⟩ else RedisCache.missPath cfg env params key
    | none => RedisCache.missPath cfg env params key

/-- Whether a `proxy` call on `params` finds a miss in `env`: the key is
absent, empty, or deserializes to a falsy value. -/
def RedisCache.missAt {T Params : Type} (cfg : CacheCfg T Params) (env : PoolEnv)
    (params : Params) : Bool :=
  match env.store (cfg.serializeKey params) with
  | none => true
  | some s => s = "" || !cfg.truthy (cfg.deserializeValue s)

/-! ### Command executor (`RedisPool.exec`) -/

/-- Events performed by `RedisPool.exec` on the pool and on its promise. -/
inductive PoolEvent where
  | acquireEv
  | releaseEv
  | rejectEv (e : String)
  | resolveEv
  deriving DecidableEq, Repr

/-- The callback built by `exec`: `this.release(client); if (error)
reject(error); resolve(results);` — release first, then the settlement
attempts (note the unconditional `resolve` after a `reject`; the promise
ignores the second attempt). -/
def execCallback {α : Type} (outcome : Except String α) : List PoolEvent :=
  match outcome with
  | .error e => [.releaseEv, .rejectEv e, .resolveEv]
  | .ok _ => [.releaseEv, .resolveEv]

/-- The event trace of `exec` once a connection has been acquired and the
single command has delivered `outcome` to the callback. -/
def RedisPool.execEvents {α : Type} (outcome : Except String α) : List PoolEvent :=
  .acquireEv :: execCallback outcome

/-- Number of `acquire` calls in a trace. -/
def countAcquires (evs : List PoolEvent) : Nat :=
  (evs.filter (fun ev => ev = .acquireEv)).length

/-- Number of `release` calls in a trace. -/
def countReleases (evs : List PoolEvent) : Nat :=
  (evs.filter (fun ev => ev = .releaseEv)).length

/-- Promise semantics: the first settlement attempt in the trace wins.
`some none` means the promise resolved, `some (some e)` that it rejected
with `e`, `none` that it never settled. -/
def firstSettle : List PoolEvent → Option (Option String)
  | [] => none
  | .resolveEv :: _ => some none
  | .rejectEv e :: _ => some (some e)
  | .acquireEv :: rest => firstSettle rest
  | .releaseEv :: rest => firstSettle rest

/-! ### Healthcheck -/

/-- Shape of `HealthcheckResult` in `pool.ts`. -/
structure HealthcheckResult where
  available : Bool
  url : String
  timeToAcquire : Option String
  duration : Option String
  warning : Option String
  info : Option String
  deriving DecidableEq, Repr

/-- Environment of one `healthcheck` run: whether `acquire` rejects, the
error the ping callback receives (if any), and the two `process.hrtime`
measurements (whole seconds, nanoseconds). -/
structure HcEnv where
  acquireFails : Option String
  pingError : Option String
  timeToAcquire : Nat × Nat
  duration : Nat × Nat

/-! ### Connection factory (`createNewPool`) -/

/-- Terminal events the transport can emit during connection establishment. -/
inductive TransportEvent where
  | terr (e : String)
  | tready
  deriving DecidableEq, Repr

/-- State of one `factory.create` promise: the `fulfilled` flag and the
settlement attempts made so far (`.ok id` = `resolve(client)`,
`.error e` = `reject(error)`). -/
structure CreateState where
  fulfilled : Bool
  attempts : List (Except String Nat)

/-- One transport event, as handled by `factory.create`: the error handler
rejects only `if (! fulfilled)` and sets the flag; the ready handler sets
the flag and calls `resolve(client)` unconditionally. -/
def createStep (clientId : Nat) (s : CreateState) : TransportEvent → CreateState
  | .terr e => if s.fulfilled then s else ⟨true, s.attempts ++ [.error e]⟩
  | .tready => ⟨true, s.attempts ++ [.ok clientId]⟩

/-- Run `factory.create`'s handlers over the transport's event stream,
starting from `fulfilled = false` and no settlement attempts. -/
def createRun (clientId : Nat) (events : List TransportEvent) : CreateState :=
  events.foldl (createStep clientId) ⟨false, []⟩

/-- Promise semantics: of all settlement attempts, the first one wins. -/
def createResult (clientId : Nat) (events : List TransportEvent) :
    Option (Except String Nat) :=
  (createRun clientId events).attempts.head?

/-- The first terminal event of the stream, mapped to the settlement it
calls for. -/
def firstTerminal (clientId : Nat) (events : List TransportEvent) :
    Option (Except String Nat) :=
  match events.head? with
  | some (.terr e) => some (.error e)
  | some .tready => some (.ok clientId)
  | none => none

/-! ### Decimal rendering (`utils.ts`) -/

/-- The character for one decimal digit. -/
def digitChar (d : Nat) : Char := Char.ofNat (48 + d)

/-- Fuel-driven decimal digit expansion (most significant digit first). -/
def natReprAux : Nat → Nat → List Char
  | 0, _ => []
  | fuel + 1, n =>
    if n < 10 then [digitChar n]
    else natReprAux fuel (n / 10) ++ [digitChar (n % 10)]

/-- Decimal rendering of a natural number (JS `${n}` for integers). -/
def natRepr (n : Nat) : String := ⟨natReprAux (n + 1) n⟩

/-- `nanosecondsPerMillisecond = 10e5` in `utils.ts`. -/
def nanosecondsPerMillisecond : Nat := 1000000

/-- Rounding of a `d`-digit number (`d ≥ 7`) to six significant digits,
half away from zero as ECMAScript prescribes; returns the six-digit
significand and the base-10 exponent of the value `ns · 10⁻⁶`, bumping the
exponent when the rounding overflows to `10^6`. -/
def roundSig (ns d : Nat) : Nat × Nat :=
  let m := 10 ^ (d - 6)
  let q := ns / m
  let sig0 := if m ≤ 2 * (ns % m) then q + 1 else q
  if sig0 = 10 ^ 6 then (10 ^ 5, d - 6) else (sig0, d - 7)

/-- Fixed-notation rendering of a six-digit significand `sig` at base-10
exponent `e`: integer part, point, zero-padded fractional part (`5 - e`
fractional digits in total). -/
def renderFixed (sig e : Nat) : String :=
  let fp := sig % 10 ^ (5 - e)
  natRepr (sig / 10 ^ (5 - e)) ++ "." ++
    String.mk (List.replicate (5 - e - (natReprAux (fp + 1) fp).length) '0') ++
    natRepr fp

/-- Decimal model of `(nanoseconds / 10e5).toPrecision(6)` for
`0 ≤ nanoseconds < 10^9` (so the value is in `[0, 1000)` milliseconds and
ECMAScript `toPrecision` always uses fixed notation).  The exact rational
`ns · 10⁻⁶` is rounded to six significant digits and rendered in fixed
notation. -/
def msPrec6 (ns : Nat) : String :=
  if ns = 0 then "0.00000"
  else
    if (natReprAux (ns + 1) ns).length ≤ 6 then
      String.mk ('0' :: '.' :: List.replicate (6 - (natReprAux (ns + 1) ns).length) '0') ++
        natRepr (ns * 10 ^ (6 - (natReprAux (ns + 1) ns).length))
    else
      renderFixed (roundSig ns (natReprAux (ns + 1) ns).length).1
        (roundSig ns (natReprAux (ns + 1) ns).length).2

/-- `formatDuration` of `utils.ts`, on a `process.hrtime()` pair
`(wholeSeconds, nanoseconds)` of natural numbers. -/
def formatDuration (t : Nat × Nat) : String :=
  let wholeSeconds := t.1
  let milliseconds := msPrec6 t.2 ++ "ms"
  if wholeSeconds < 1 then milliseconds
  else if wholeSeconds < 60 then natRepr wholeSeconds ++ "sec " ++ milliseconds
  else if wholeSeconds < 60 * 60 then
    natRepr (wholeSeconds / 60) ++ "min " ++ natRepr (wholeSeconds % 60) ++ "sec " ++ milliseconds
  else
    natRepr (wholeSeconds / (60 * 60)) ++ "hr " ++
      natRepr (wholeSeconds % (60 * 60) / 60) ++ "min " ++
      natRepr (wholeSeconds % (60 * 60) % 60) ++ "sec " ++ milliseconds

/-- `RedisPool.healthcheck`: `await this.acquire()` is not guarded, so a
rejected acquisition propagates (the promise rejects).  Otherwise the ping
callback always resolves: on a ping error the result carries
`available: false` and `info: error.message`; the durations are formatted;
the warning is set when `duration[0] > 0 || duration[1] / 10e5 > 50`. -/
def RedisPool.healthcheck (host : String) (port db : Nat) (env : HcEnv) :
    Except String HealthcheckResult :=
  match env.acquireFails with
  | some e => .error e
  | none =>
    .ok {
      available := env.pingError.isNone
      url := "redis://" ++ host ++ ":" ++ natRepr port ++ "/" ++ natRepr db
      timeToAcquire := some (formatDuration env.timeToAcquire)
      duration := some (formatDuration env.duration)
      warning :=
        if 0 < env.duration.1 ∨ 50 * nanosecondsPerMillisecond < env.duration.2 then
          some "Connection slower than 50ms"
        else none
      info := env.pingError
    }

/-! ### Helper lemmas on the cache model -/

theorem proxy_getFails {T Params : Type} (cfg : CacheCfg T Params) (env : PoolEnv)
    (p : Params) (e : String) (h : env.getFails = some e) :
    RedisCache.proxy cfg env p = ⟨.error e, 0, env, []⟩ := by
  simp [RedisCache.proxy, RedisCache.get, RedisPool.getRes, h]

theorem proxy_miss {T Params : Type} (cfg : CacheCfg T Params) (env : PoolEnv)
    (p : Params) (h : env.getFails = none) (hm : RedisCache.missAt cfg env p = true) :
    RedisCache.proxy cfg env p = RedisCache.missPath cfg env p (cfg.serializeKey p) := by
  unfold RedisCache.missAt at hm
  unfold RedisCache.proxy RedisCache.get RedisPool.getRes
  rw [h]
  rcases hst : env.store (cfg.serializeKey p) with _ | s
  · simp [hst]
  · rw [hst] at hm
    simp only [Bool.or_eq_true, decide_eq_true_eq, Bool.not_eq_true'] at hm
    rcases hm with hm | hm
    · simp [hst, hm]
    · by_cases hs : s = ""
      · simp [hst, hs]
      · simp [hst, hs, hm]

theorem proxy_hit {T Params : Type} (cfg : CacheCfg T Params) (env : PoolEnv)
    (p : Params) (s : String) (h : env.getFails = none)
    (hs : env.store (cfg.serializeKey p) = some s) (hne : s ≠ "")
    (ht : cfg.truthy (cfg.deserializeValue s) = true) :
    RedisCache.proxy cfg env p = ⟨.ok (cfg.deserializeValue s), 0, env, []⟩ := by
  unfold RedisCache.proxy RedisCache.get RedisPool.getRes
  rw [h]
  simp [hs, hne, ht]

theorem missPath_pass_error {T Params : Type} (cfg : CacheCfg T Params) (env : PoolEnv)
    (p : Params) (key : String) (e : String) (hp : cfg.passthrough p = .error e) :
    RedisCache.missPath cfg env p key = ⟨.error e, 1, env, []⟩ := by
  simp [RedisCache.missPath, hp]

theorem missPath_pass_ok {T Params : Type} (cfg : CacheCfg T Params) (env : PoolEnv)
    (p : Params) (key : String) (v : T) (hp : cfg.passthrough p = .ok v) :
    RedisCache.missPath cfg env p key =
      ⟨.ok v, 1, (RedisCache.set cfg env key v).1, (RedisCache.set cfg env key v).2.1⟩ := by
  simp [RedisCache.missPath, hp]

/-! ### Concrete instances for witnesses and counterexamples -/

/-- An empty store. -/
def store0 : Store := fun _ => none

/-- A store holding the string `"0"` under `"key:9"`. -/
def store9 : Store := fun k => if k = "key:9" then some "0" else none

/-- Decimal digit accumulation for `parseNat`. -/
def parseNatList : List Char → Nat → Nat
  | [], acc => acc
  | c :: cs, acc => parseNatList cs (acc * 10 + (c.toNat - 48))

/-- A simple decimal parser, used as a concrete deserializer. -/
def parseNat (s : String) : Nat := parseNatList s.toList 0

/-- A concrete cache configuration over `Nat` values and `Nat` params:
keys `"key:<p>"`, decimal value serialization, passthrough returning `7`. -/
def cfgA : CacheCfg Nat Nat where
  ttl := some 60
  serializeKey := fun p => "key:" ++ natRepr p
  serializeValue := fun v => .ok (natRepr v)
  deserializeValue := fun s => parseNat s
  truthy := fun v => v ≠ 0
  passthrough := fun _ => .ok 7

/-- All pool operations succeed over the empty store. -/
def envOk : PoolEnv := ⟨store0, none, none, none⟩

/-- The pool's `get` rejects. -/
def envGetFail : PoolEnv := ⟨store0, some "read failed", none, none⟩

/-- All pool operations succeed; `"key:9"` caches the string `"0"`. -/
def envZero : PoolEnv := ⟨store9, none, none, none⟩

/-! ### C1 -/

/-- C1 counterexample: with a passthrough that would succeed with `7`, a
rejected cache read makes `proxy` reject without the passthrough ever being
attempted — refuting "the passthrough operation is still attempted: a proxy
call fails only when both the cache read and the passthrough operation
fail" at the concrete input `params = 3`. -/
theorem C1_counterexample :
    (RedisCache.proxy cfgA envGetFail 3).result = .error "read failed" ∧
    (RedisCache.proxy cfgA envGetFail 3).passthroughCalls = 0 ∧
    cfgA.passthrough 3 = .ok 7 :=
  ⟨rfl, rfl, rfl⟩

/-- C1 (amended): a failing cache read aborts `proxy` — if the underlying
`get` rejects, `proxy(params)` rejects with that error and the passthrough
is never attempted; when the cache read succeeds, `proxy` fails exactly
when the read is a miss and the passthrough fails. -/
theorem C1_cache_read_failure_aborts_proxy {T Params : Type} (cfg : CacheCfg T Params)
    (env : PoolEnv) (p : Params) :
    (∀ e, env.getFails = some e →
      (RedisCache.proxy cfg env p).result = .error e ∧
      (RedisCache.proxy cfg env p).passthroughCalls = 0) ∧
    (env.getFails = none →
      (excIsErr (RedisCache.proxy cfg env p).result = true ↔
        RedisCache.missAt cfg env p = true ∧ excIsErr (cfg.passthrough p) = true)) := by
  constructor
  · intro e he
    rw [proxy_getFails cfg env p e he]
    exact ⟨rfl, rfl⟩
  · intro h
    by_cases hm : RedisCache.missAt cfg env p = true
    · rw [proxy_miss cfg env p h hm]
      rcases hp : cfg.passthrough p with e | v
      · rw [missPath_pass_error cfg env p _ e hp]
        simp [excIsErr, hm]
      · rw [missPath_pass_ok cfg env p _ v hp]
        simp [excIsErr]
    · unfold RedisCache.missAt at hm
      rcases hst : env.store (cfg.serializeKey p) with _ | s
    -- an absent key is always a miss, contradiction
      · rw [hst] at hm; simp at hm
      · rw [hst] at hm
        simp only [Bool.or_eq_true, decide_eq_true_eq, Bool.not_eq_true',
          not_or, Bool.not_eq_false] at hm
        rw [proxy_hit cfg env p s h hst hm.1 hm.2]
        simp [excIsErr, RedisCache.missAt, hst, hm.1, hm.2]

/-- Witness for the amended C1, at a rejecting read (first part) and at a
successful read over the empty store with a succeeding passthrough (second
part). -/
theorem C1_amended_witness :
    ((RedisCache.proxy cfgA envGetFail 5).result = .error "read failed" ∧
      (RedisCache.proxy cfgA envGetFail 5).passthroughCalls = 0) ∧
    (excIsErr (RedisCache.proxy cfgA envOk 5).result = true ↔
      RedisCache.missAt cfgA envOk 5 = true ∧ excIsErr (cfgA.passthrough 5) = true) :=
  ⟨(C1_cache_read_failure_aborts_proxy cfgA envGetFail 5).1 "read failed" rfl,
    (C1_cache_read_failure_aborts_proxy cfgA envOk 5).2 rfl⟩

/-! ### C9 -/

/-- C9: the hit test `if (fromCache)` is applied to the deserialized value —
a present, non-empty cached string that deserializes to a falsy value is
treated as a miss: the passthrough runs once and its result (not the cached
one) is returned. -/
theorem C9_falsy_deserialized_is_miss {T Params : Type} (cfg : CacheCfg T Params)
    (env : PoolEnv) (p : Params) (s : String) (v : T)
    (h : env.getFails = none)
    (hs : env.store (cfg.serializeKey p) = some s) (_hne : s ≠ "")
    (hfalsy : cfg.truthy (cfg.deserializeValue s) = false)
    (hp : cfg.passthrough p = .ok v) :
    (RedisCache.proxy cfg env p).result = .ok v ∧
    (RedisCache.proxy cfg env p).passthroughCalls = 1 := by
  have hm : RedisCache.missAt cfg env p = true := by
    unfold RedisCache.missAt
    rw [hs]
    simp [hfalsy]
  rw [proxy_miss cfg env p h hm, missPath_pass_ok cfg env p _ v hp]
  exact ⟨rfl, rfl⟩

/-- Witness for C9: `"key:9"` caches `"0"`, which deserializes to the falsy
`0`; the proxy returns the passthrough's `7` and runs it once. -/
theorem C9_witness :
    store9 "key:9" = some "0" ∧ cfgA.deserializeValue "0" = 0 ∧
    (RedisCache.proxy cfgA envZero 9).result = .ok 7 ∧
    (RedisCache.proxy cfgA envZero 9).passthroughCalls = 1 :=
  ⟨rfl, by decide,
    (C9_falsy_deserialized_is_miss cfgA envZero 9 "0" 7 rfl rfl (by decide) (by decide) rfl).1,
    (C9_falsy_deserialized_is_miss cfgA envZero 9 "0" 7 rfl rfl (by decide) (by decide) rfl).2⟩

/-! ### C4 -/

/-- C4: when the read misses and the passthrough succeeds, `proxy` returns
the passthrough's value whatever the write-back does; a failing
serialization or store write only logs the warning and leaves the store
unchanged, while a successful write stores the serialized value. -/
theorem C4_writeback_fire_and_forget {T Params : Type} (cfg : CacheCfg T Params)
    (env : PoolEnv) (p : Params) (v : T)
    (h : env.getFails = none)
    (hm : RedisCache.missAt cfg env p = true)
    (hp : cfg.passthrough p = .ok v) :
    (RedisCache.proxy cfg env p).result = .ok v ∧
    (RedisCache.proxy cfg env p).passthroughCalls = 1 ∧
    (∀ e, cfg.serializeValue v = .error e →
      (RedisCache.proxy cfg env p).warnings = [cacheSetWarning] ∧
      (RedisCache.proxy cfg env p).env = env) ∧
    (∀ s e, cfg.serializeValue v = .ok s → env.setFails = some e →
      (RedisCache.proxy cfg env p).warnings = [cacheSetWarning] ∧
      (RedisCache.proxy cfg env p).env = env) ∧
    (∀ s, cfg.serializeValue v = .ok s → env.setFails = none →
      (RedisCache.proxy cfg env p).warnings = [] ∧
      (RedisCache.proxy cfg env p).env.store (cfg.serializeKey p) = some s) := by
  rw [proxy_miss cfg env p h hm, missPath_pass_ok cfg env p _ v hp]
  refine ⟨rfl, rfl, ?_, ?_, ?_⟩
  · intro e hser
    simp [RedisCache.set, hser]
  · intro s e hser hsf
    simp [RedisCache.set, hser, RedisPool.setRes, hsf]
  · intro s hser hsf
    simp [RedisCache.set, hser, RedisPool.setRes, hsf]

/-- All pool operations succeed except `set`, which rejects. -/
def envSetFail : PoolEnv := ⟨store0, none, some "write failed", none⟩

/-- Witness for C4: over the empty store with a rejecting `set`, `proxy`
still returns the passthrough's `7`, logs the warning and leaves the
environment alone. -/
theorem C4_witness :
    (RedisCache.proxy cfgA envSetFail 2).result = .ok 7 ∧
    (RedisCache.proxy cfgA envSetFail 2).passthroughCalls = 1 ∧
    (RedisCache.proxy cfgA envSetFail 2).warnings = [cacheSetWarning] ∧
    (RedisCache.proxy cfgA envSetFail 2).env = envSetFail :=
  have h := C4_writeback_fire_and_forget cfgA envSetFail 2 7 rfl (by decide) rfl
  ⟨h.1, h.2.1, (h.2.2.2.1 "7" "write failed" rfl rfl).1,
    (h.2.2.2.1 "7" "write failed" rfl rfl).2⟩

/-! ### C5 -/

/-- C5 counterexample: `"key:9"` holds the value `"0"`, yet
`proxy(9)` invokes the passthrough (once) and returns the passthrough's
`7` instead of the deserialization `0` of the cached value — refuting "if
the store holds a value under `serializeKey(params)`, `proxy(params)`
returns the deserialization of that value and does not invoke the
passthrough" at the concrete input `params = 9`. -/
theorem C5_counterexample :
    envZero.store (cfgA.serializeKey 9) = some "0" ∧
    cfgA.deserializeValue "0" = 0 ∧
    (RedisCache.proxy cfgA envZero 9).passthroughCalls = 1 ∧
    (RedisCache.proxy cfgA envZero 9).result = .ok 7 ∧
    (7 : Nat) ≠ 0 :=
  ⟨by decide, by decide, rfl, rfl, by decide⟩

/-- C5 (amended): a cached value is returned without the passthrough only
when its deserialization is truthy; absent, empty or falsy-deserializing
values take the miss path with exactly one passthrough call; the round
trip `proxy(p); proxy(p)` (with the write-back of the first call complete
before the second read) invokes the passthrough exactly once, provided the
written serialization is non-empty and deserializes to a truthy value. -/
theorem C5_cache_hit_miss_roundtrip {T Params : Type} (cfg : CacheCfg T Params)
    (env : PoolEnv) (p : Params) :
    (∀ s, env.getFails = none → env.store (cfg.serializeKey p) = some s → s ≠ "" →
      cfg.truthy (cfg.deserializeValue s) = true →
      (RedisCache.proxy cfg env p).result = .ok (cfg.deserializeValue s) ∧
      (RedisCache.proxy cfg env p).passthroughCalls = 0) ∧
    (∀ v, env.getFails = none → RedisCache.missAt cfg env p = true →
      cfg.passthrough p = .ok v →
      (RedisCache.proxy cfg env p).result = .ok v ∧
      (RedisCache.proxy cfg env p).passthroughCalls = 1) ∧
    (∀ v s, env.getFails = none → env.setFails = none →
      RedisCache.missAt cfg env p = true →
      cfg.passthrough p = .ok v → cfg.serializeValue v = .ok s → s ≠ "" →
      cfg.truthy (cfg.deserializeValue s) = true →
      (RedisCache.proxy cfg env p).passthroughCalls = 1 ∧
      (RedisCache.proxy cfg ((RedisCache.proxy cfg env p).env) p).passthroughCalls = 0 ∧
      (RedisCache.proxy cfg ((RedisCache.proxy cfg env p).env) p).result =
        .ok (cfg.deserializeValue s)) := by
  refine ⟨?_, ?_, ?_⟩
  · intro s h hs hne ht
    rw [proxy_hit cfg env p s h hs hne ht]
    exact ⟨rfl, rfl⟩
  · intro v h hm hp
    rw [proxy_miss cfg env p h hm, missPath_pass_ok cfg env p _ v hp]
    exact ⟨rfl, rfl⟩
  · intro v s h hset hm hp hser hne ht
    have henv : (RedisCache.proxy cfg env p).env =
        { env with store := fun k => if k = cfg.serializeKey p then some s else env.store k } := by
      rw [proxy_miss cfg env p h hm, missPath_pass_ok cfg env p _ v hp]
      simp [RedisCache.set, hser, RedisPool.setRes, hset]
    have hcalls : (RedisCache.proxy cfg env p).passthroughCalls = 1 := by
      rw [proxy_miss cfg env p h hm, missPath_pass_ok cfg env p _ v hp]
    have h2 := proxy_hit cfg
      { env with store := fun k => if k = cfg.serializeKey p then some s else env.store k }
      p s h (by simp) hne ht
    rw [henv, h2]
    exact ⟨hcalls, rfl, rfl⟩

/-- The store before the C5 round-trip witness: empty. -/
theorem C5_witness :
    ((RedisCache.proxy cfgA envOk 4).passthroughCalls = 1 ∧
      (RedisCache.proxy cfgA ((RedisCache.proxy cfgA envOk 4).env) 4).passthroughCalls = 0 ∧
      (RedisCache.proxy cfgA ((RedisCache.proxy cfgA envOk 4).env) 4).result =
        .ok (cfgA.deserializeValue "7")) ∧
    cfgA.deserializeValue "7" = 7 :=
  ⟨(C5_cache_hit_miss_roundtrip cfgA envOk 4).2.2 7 "7" rfl rfl (by decide) rfl rfl
      (by decide) (by decide), by decide⟩

/-! ### C6 -/

/-- C6: `invalidate(params)` issues a delete for exactly the single key
`serializeKey(params)`; a rejected delete propagates to the caller with the
store untouched; a successful delete removes that key and no other, and the
next `proxy(params)` takes the miss path, invoking the passthrough again. -/
theorem C6_invalidate_exact_key_propagates {T Params : Type} (cfg : CacheCfg T Params)
    (env : PoolEnv) (p : Params) :
    (RedisCache.invalidate cfg env p).2.2 = .delCmd [cfg.serializeKey p] ∧
    (∀ e, env.delFails = some e →
      (RedisCache.invalidate cfg env p).1 = .error e ∧
      (RedisCache.invalidate cfg env p).2.1 = env) ∧
    (env.delFails = none →
      (RedisCache.invalidate cfg env p).1 = .ok () ∧
      (RedisCache.invalidate cfg env p).2.1.store (cfg.serializeKey p) = none ∧
      (∀ k, k ≠ cfg.serializeKey p →
        (RedisCache.invalidate cfg env p).2.1.store k = env.store k) ∧
      (env.getFails = none →
        (RedisCache.proxy cfg ((RedisCache.invalidate cfg env p).2.1) p).passthroughCalls = 1)) := by
  refine ⟨?_, ?_, ?_⟩
  · unfold RedisCache.invalidate RedisPool.delRes
    rcases env.delFails with _ | e <;> rfl
  · intro e he
    unfold RedisCache.invalidate RedisPool.delRes
    rw [he]
    exact ⟨rfl, rfl⟩
  · intro hd
    have hinv : RedisCache.invalidate cfg env p =
        (.ok (), { env with store := fun k =>
          if k ∈ [cfg.serializeKey p] then none else env.store k }, .delCmd [cfg.serializeKey p]) := by
      unfold RedisCache.invalidate RedisPool.delRes
      rw [hd]
    rw [hinv]
    refine ⟨rfl, by simp, fun k hk => by simp [hk], fun hg => ?_⟩
    have hm : RedisCache.missAt cfg
        { env with store := fun k =>
          if k ∈ [cfg.serializeKey p] then none else env.store k } p = true := by
      unfold RedisCache.missAt
      simp
    show (RedisCache.proxy cfg
      { env with store := fun k =>
        if k ∈ [cfg.serializeKey p] then none else env.store k } p).passthroughCalls = 1
    rw [proxy_miss cfg
      { env with store := fun k =>
        if k ∈ [cfg.serializeKey p] then none else env.store k } p hg hm]
    unfold RedisCache.missPath
    rcases cfg.passthrough p with e | v
    · rfl
    · rfl

/-- A store holding `"77"` under the key `"key:4"`. -/
def store4 : Store := fun k => if k = "key:4" then some "77" else none

/-- All pool operations succeed; `"key:4"` caches `"77"`. -/
def envFour : PoolEnv := ⟨store4, none, none, none⟩

/-- All pool operations succeed except `del`, which rejects. -/
def envDelFail : PoolEnv := ⟨store4, none, none, some "del failed"⟩

/-- Witness for C6: deleting `"key:4"` removes exactly that key and makes
the next `proxy(4)` run the passthrough; with a rejecting `del` the error
propagates. -/
theorem C6_witness :
    (RedisCache.invalidate cfgA envFour 4).2.2 = .delCmd ["key:4"] ∧
    (RedisCache.invalidate cfgA envFour 4).1 = .ok () ∧
    (RedisCache.invalidate cfgA envFour 4).2.1.store "key:4" = none ∧
    (RedisCache.invalidate cfgA envFour 4).2.1.store "key:9" = envFour.store "key:9" ∧
    (RedisCache.proxy cfgA ((RedisCache.invalidate cfgA envFour 4).2.1) 4).passthroughCalls = 1 ∧
    (RedisCache.invalidate cfgA envDelFail 4).1 = .error "del failed" :=
  have h := C6_invalidate_exact_key_propagates cfgA envFour 4
  have hkey : cfgA.serializeKey 4 = "key:4" := rfl
  ⟨by rw [h.1, hkey], (h.2.2 rfl).1, by rw [← hkey]; exact (h.2.2 rfl).2.1,
    (h.2.2 rfl).2.2.1 "key:9" (by decide), (h.2.2 rfl).2.2.2 rfl,
    ((C6_invalidate_exact_key_propagates cfgA envDelFail 4).2.1 "del failed" rfl).1⟩

/-! ### C10 -/

/-- C10: a falsy expiration (`0` or absent) makes `RedisPool.set` issue a
plain `SET` with no `EX` argument, while a nonzero expiration issues
`SET .. EX ..`; consequently a cache configured with ttl `0` or with the
ttl omitted writes its entries with a plain `SET` (no expiry). -/
theorem C10_falsy_ttl_plain_set {T Params : Type} (cfg : CacheCfg T Params)
    (env : PoolEnv) (key value : String) (v : T) :
    RedisPool.setCmd key value none = ClientCmd.setPlain key value ∧
    RedisPool.setCmd key value (some 0) = ClientCmd.setPlain key value ∧
    (∀ n, n ≠ 0 → RedisPool.setCmd key value (some n) = ClientCmd.setEx key value n) ∧
    ((cfg.ttl = none ∨ cfg.ttl = some 0) → ∀ s, cfg.serializeValue v = .ok s →
      (RedisCache.set cfg env key v).2.2 = some (ClientCmd.setPlain key s)) := by
  refine ⟨rfl, rfl, fun n hn => by simp [RedisPool.setCmd, hn], ?_⟩
  intro httl s hser
  have hcmd : RedisPool.setCmd key s cfg.ttl = ClientCmd.setPlain key s := by
    rcases httl with h | h <;> rw [h] <;> rfl
  unfold RedisCache.set RedisPool.setRes
  rw [hser]
  rcases env.setFails with _ | e <;> simp [hcmd]

/-- `cfgA` with the ttl set to the falsy `0`. -/
def cfgZeroTtl : CacheCfg Nat Nat := { cfgA with ttl := some 0 }

/-- Witness for C10: a write-back under ttl `0` issues a plain `SET`. -/
theorem C10_witness :
    (RedisCache.set cfgZeroTtl envOk "key:2" 7).2.2 = some (ClientCmd.setPlain "key:2" "7") ∧
    RedisPool.setCmd "key:2" "7" (some 0) = ClientCmd.setPlain "key:2" "7" :=
  have h := C10_falsy_ttl_plain_set cfgZeroTtl envOk "key:2" "7" 7
  ⟨h.2.2.2 (Or.inr rfl) "7" rfl, h.2.1⟩

/-! ### C3 -/

/-- C3: for every command outcome delivered through `exec`'s callback
(success or mid-flight error), the trace contains exactly one acquire and
exactly one release, the release happens before any settlement of the
promise, and the promise settles with exactly the command's outcome (all
eight public commands — ping, get, set, del, hmset, hgetall, multi,
batch — delegate to `exec`). -/
theorem C3_exec_balanced_acquire_release (outcome : Except String String) :
    countAcquires (RedisPool.execEvents outcome) = 1 ∧
    countReleases (RedisPool.execEvents outcome) = 1 ∧
    (∃ rest, RedisPool.execEvents outcome = .acquireEv :: .releaseEv :: rest ∧
      countAcquires rest = 0 ∧ countReleases rest = 0) ∧
    firstSettle (RedisPool.execEvents outcome) =
      some (match outcome with | .ok _ => none | .error e => some e) := by
  rcases outcome with e | r
  · exact ⟨rfl, rfl, ⟨_, rfl, rfl, rfl⟩, rfl⟩
  · exact ⟨rfl, rfl, ⟨_, rfl, rfl, rfl⟩, rfl⟩

/-! ### C7 -/

theorem createStep_attempts (clientId : Nat) (s : CreateState) (ev : TransportEvent) :
    ∃ u, (createStep clientId s ev).attempts = s.attempts ++ u := by
  rcases ev with e | _
  · by_cases hf : s.fulfilled
    · exact ⟨[], by simp [createStep, hf]⟩
    · exact ⟨[.error e], by simp [createStep, hf]⟩
  · exact ⟨[.ok clientId], rfl⟩

theorem createFold_attempts (clientId : Nat) (events : List TransportEvent) :
    ∀ s, ∃ t, (List.foldl (createStep clientId) s events).attempts = s.attempts ++ t := by
  induction events with
  | nil => exact fun s => ⟨[], by simp⟩
  | cons ev rest ih =>
    intro s
    obtain ⟨u, hu⟩ := createStep_attempts clientId s ev
    obtain ⟨t, ht⟩ := ih (createStep clientId s ev)
    exact ⟨u ++ t, by rw [List.foldl_cons, ht, hu, List.append_assoc]⟩

/-- C7: the settlement of `factory.create`'s promise is determined by the
first terminal transport event — it resolves with the client exactly when
`ready` comes first, rejects with the transport's error exactly when an
error comes first, and later events never change the settlement; in
particular an error immediately followed by `ready` leaves the promise
rejected. -/
theorem C7_create_first_terminal_event_wins (clientId : Nat)
    (events : List TransportEvent) :
    createResult clientId events = firstTerminal clientId events ∧
    createResult 1 [.terr "boom", .tready] = some (.error "boom") := by
  refine ⟨?_, rfl⟩
  rcases events with _ | ⟨ev, rest⟩
  · rfl
  · have hstep : ∀ s0 : CreateState, s0.attempts ≠ [] →
        ((List.foldl (createStep clientId) s0 rest).attempts).head? =
          s0.attempts.head? := by
      intro s0 hne
      obtain ⟨t, ht⟩ := createFold_attempts clientId rest s0
      rcases h0 : s0.attempts with _ | ⟨a, as⟩
      · exact absurd h0 hne
      · rw [ht, h0]; rfl
    unfold createResult createRun firstTerminal
    rw [List.foldl_cons]
    rcases ev with e | _
    · rw [hstep (createStep clientId ⟨false, []⟩ (.terr e)) (by simp [createStep])]
      rfl
    · rw [hstep (createStep clientId ⟨false, []⟩ .tready) (by simp [createStep])]
      rfl

/-! ### C2 -/

/-- Acquisition fails: the endpoint is unreachable. -/
def hcEnvDown : HcEnv := ⟨some "connect ECONNREFUSED 127.0.0.1:6379", none, (0, 0), (0, 0)⟩

/-- C2 counterexample: on an unreachable endpoint, connection acquisition
rejects and `healthcheck()` rejects with that error instead of returning an
`available: false` result — refuting "healthcheck() never fails ...
including an unreachable endpoint where connection acquisition itself
fails". -/
theorem C2_counterexample :
    RedisPool.healthcheck "localhost" 6379 0 hcEnvDown =
      .error "connect ECONNREFUSED 127.0.0.1:6379" := rfl

/-- C2 (amended): once a connection is acquired, `healthcheck()` always
returns a result: a ping failure is captured as `available: false` with
`info` carrying the error message, a successful ping yields
`available: true`, and both durations are formatted into the result; a
failed acquisition, however, propagates as a rejection. -/
theorem C2_healthcheck_captures_ping_errors (host : String) (port db : Nat)
    (env : HcEnv) (h : env.acquireFails = none) :
    ∃ r, RedisPool.healthcheck host port db env = .ok r ∧
      (∀ m, env.pingError = some m → r.available = false ∧ r.info = some m) ∧
      (env.pingError = none → r.available = true ∧ r.info = none) ∧
      r.duration = some (formatDuration env.duration) ∧
      r.timeToAcquire = some (formatDuration env.timeToAcquire) := by
  unfold RedisPool.healthcheck
  rw [h]
  refine ⟨_, rfl, ?_, ?_, rfl, rfl⟩
  · intro m hm
    simp [hm]
  · intro hm
    simp [hm]

/-- Acquisition succeeds but the ping errors after a slow round trip. -/
def hcEnvPingFail : HcEnv := ⟨none, some "broken pipe", (0, 5000), (0, 60000000)⟩

/-- Witness for the amended C2 at a concrete failing ping. -/
theorem C2_witness :
    ∃ r, RedisPool.healthcheck "localhost" 6379 0 hcEnvPingFail = .ok r ∧
      (∀ m, hcEnvPingFail.pingError = some m → r.available = false ∧ r.info = some m) ∧
      (hcEnvPingFail.pingError = none → r.available = true ∧ r.info = none) ∧
      r.duration = some (formatDuration hcEnvPingFail.duration) ∧
      r.timeToAcquire = some (formatDuration hcEnvPingFail.timeToAcquire) :=
  C2_healthcheck_captures_ping_errors "localhost" 6379 0 hcEnvPingFail rfl

/-! ### C8: digit-level lemmas -/

theorem natReprAux_length (k : Nat) :
    ∀ fuel n, 10 ^ k ≤ n → n < 10 ^ (k + 1) → k + 1 ≤ fuel →
      (natReprAux fuel n).length = k + 1 := by
  induction k with
  | zero =>
    intro fuel n h1 h2 hf
    rcases fuel with _ | f
    · omega
    · have hn : n < 10 := by norm_num at h2; exact h2
      simp only [natReprAux]
      rw [if_pos hn]
      rfl
  | succ k ih =>
    intro fuel n h1 h2 hf
    rcases fuel with _ | f
    · omega
    · have h10 : (10:Nat) ≤ 10 ^ (k + 1) := by
        calc (10:Nat) = 10 ^ 1 := (pow_one 10).symm
        _ ≤ 10 ^ (k + 1) := Nat.pow_le_pow_right (by norm_num) (by omega)
      have hn : ¬ n < 10 := by omega
      have hd1 : 10 ^ k ≤ n / 10 := by
        rw [Nat.le_div_iff_mul_le (by norm_num)]
        calc 10 ^ k * 10 = 10 ^ (k + 1) := by ring
        _ ≤ n := h1
      have hd2 : n / 10 < 10 ^ (k + 1) := by
        rw [Nat.div_lt_iff_lt_mul (by norm_num)]
        calc n < 10 ^ (k + 1 + 1) := h2
        _ = 10 ^ (k + 1) * 10 := by ring
      simp only [natReprAux]
      rw [if_neg hn, List.length_append, ih f (n / 10) hd1 hd2 (by omega)]
      rfl

theorem natReprAux_head (k : Nat) :
    ∀ fuel n, 10 ^ k ≤ n → n < 10 ^ (k + 1) → k + 1 ≤ fuel →
      ∃ cs, natReprAux fuel n = digitChar (n / 10 ^ k) :: cs := by
  induction k with
  | zero =>
    intro fuel n h1 h2 hf
    rcases fuel with _ | f
    · omega
    · have hn : n < 10 := by norm_num at h2; exact h2
      refine ⟨[], ?_⟩
      simp only [natReprAux]
      rw [if_pos hn]
      norm_num
  | succ k ih =>
    intro fuel n h1 h2 hf
    rcases fuel with _ | f
    · omega
    · have h10 : (10:Nat) ≤ 10 ^ (k + 1) := by
        calc (10:Nat) = 10 ^ 1 := (pow_one 10).symm
        _ ≤ 10 ^ (k + 1) := Nat.pow_le_pow_right (by norm_num) (by omega)
      have hn : ¬ n < 10 := by omega
      have hd1 : 10 ^ k ≤ n / 10 := by
        rw [Nat.le_div_iff_mul_le (by norm_num)]
        calc 10 ^ k * 10 = 10 ^ (k + 1) := by ring
        _ ≤ n := h1
      have hd2 : n / 10 < 10 ^ (k + 1) := by
        rw [Nat.div_lt_iff_lt_mul (by norm_num)]
        calc n < 10 ^ (k + 1 + 1) := h2
        _ = 10 ^ (k + 1) * 10 := by ring
      obtain ⟨cs, hcs⟩ := ih f (n / 10) hd1 hd2 (by omega)
      refine ⟨cs ++ [digitChar (n % 10)], ?_⟩
      have harg : n / 10 / 10 ^ k = n / 10 ^ (k + 1) := by
        rw [Nat.div_div_eq_div_mul, ← pow_succ']
      simp only [natReprAux]
      rw [if_neg hn, hcs, harg]
      rfl

theorem natReprAux_digits :
    ∀ fuel n c, c ∈ natReprAux fuel n → ∃ d, d < 10 ∧ c = digitChar d := by
  intro fuel
  induction fuel with
  | zero => intro n c hc; simp [natReprAux] at hc
  | succ f ih =>
    intro n c hc
    simp only [natReprAux] at hc
    by_cases hn : n < 10
    · rw [if_pos hn] at hc
      simp at hc
      exact ⟨n, hn, hc⟩
    · rw [if_neg hn] at hc
      rcases List.mem_append.mp hc with h | h
      · exact ih (n / 10) c h
      · simp at h
        exact ⟨n % 10, Nat.mod_lt _ (by norm_num), h⟩

theorem digitChar_isDigit : ∀ d, d < 10 → (digitChar d).isDigit = true := by decide

theorem digitChar_ne_zero : ∀ d, d < 10 → d ≠ 0 → digitChar d ≠ '0' := by decide

theorem exists_length_interval (n : Nat) (hn : n ≠ 0) :
    ∃ k, 10 ^ k ≤ n ∧ n < 10 ^ (k + 1) :=
  ⟨Nat.log 10 n, Nat.pow_log_le_self 10 hn, Nat.lt_pow_succ_log_self (by norm_num) n⟩

theorem natReprAux_length_le (j n : Nat) (hn : n < 10 ^ j) (hj : 1 ≤ j) :
    (natReprAux (n + 1) n).length ≤ j := by
  rcases Nat.eq_zero_or_pos n with rfl | hpos
  · simpa [natReprAux] using hj
  · obtain ⟨k, hk1, hk2⟩ := exists_length_interval n (by omega)
    have hkfuel : k + 1 ≤ n + 1 := by
      have := Nat.lt_pow_self (by norm_num : (1:Nat) < 10) k
      omega
    rw [natReprAux_length k (n + 1) n hk1 hk2 hkfuel]
    have hlt : 10 ^ k < 10 ^ j := lt_of_le_of_lt hk1 hn
    have := (Nat.pow_lt_pow_iff_right (by norm_num : (1:Nat) < 10)).mp hlt
    omega

/-- Number of significant digits displayed by a numeric string: digit
characters, after dropping leading zeros. -/
def sigDigitCount (s : String) : Nat :=
  ((s.data.filter Char.isDigit).dropWhile (fun c => c = '0')).length

theorem dropWhile_zero_replicate (z : Nat) (ys : List Char) :
    List.dropWhile (fun c => c = '0') (List.replicate z '0' ++ ys) =
      List.dropWhile (fun c => c = '0') ys := by
  induction z with
  | zero => simp
  | succ z ih =>
    rw [List.replicate_succ, List.cons_append]
    rw [show List.dropWhile (fun c => c = '0') ('0' :: (List.replicate z '0' ++ ys)) =
      List.dropWhile (fun c => c = '0') (List.replicate z '0' ++ ys) by simp [List.dropWhile]]
    exact ih

theorem count_zeros_then_digits (z m : Nat) (h5 : 10 ^ 5 ≤ m) (h6 : m < 10 ^ 6) :
    (List.dropWhile (fun c => c = '0')
      (List.replicate z '0' ++ natReprAux (m + 1) m)).length = 6 := by
  have hfuel : 5 + 1 ≤ m + 1 := by
    have : (6:Nat) ≤ 10 ^ 5 := by norm_num
    omega
  obtain ⟨cs, hcs⟩ := natReprAux_head 5 (m + 1) m h5 h6 hfuel
  have hlen : (natReprAux (m + 1) m).length = 6 := natReprAux_length 5 (m + 1) m h5 h6 hfuel
  have hld1 : m / 10 ^ 5 ≠ 0 := by
    have : 1 ≤ m / 10 ^ 5 := (Nat.one_le_div_iff (by norm_num)).mpr h5
    omega
  have hld10 : m / 10 ^ 5 < 10 := by
    rw [Nat.div_lt_iff_lt_mul (by norm_num)]
    calc m < 10 ^ 6 := h6
    _ = 10 * 10 ^ 5 := by ring
  have hne : digitChar (m / 10 ^ 5) ≠ '0' := digitChar_ne_zero _ hld10 hld1
  rw [dropWhile_zero_replicate, hcs, List.dropWhile, decide_eq_false hne]
  rw [hcs] at hlen
  exact hlen

theorem sigDigitCount_small (z m : Nat) (h5 : 10 ^ 5 ≤ m) (h6 : m < 10 ^ 6) :
    sigDigitCount (String.mk ('0' :: '.' :: List.replicate z '0') ++ natRepr m) = 6 := by
  unfold sigDigitCount
  have hdata : (String.mk ('0' :: '.' :: List.replicate z '0') ++ natRepr m).data
      = '0' :: '.' :: (List.replicate z '0' ++ natReprAux (m + 1) m) := rfl
  have hall : ∀ c ∈ List.replicate z '0' ++ natReprAux (m + 1) m, c.isDigit = true := by
    intro c hc
    rcases List.mem_append.mp hc with h | h
    · rw [List.eq_of_mem_replicate h]; decide
    · obtain ⟨d, hd, rfl⟩ := natReprAux_digits (m + 1) m c h
      exact digitChar_isDigit d hd
  rw [hdata, List.filter_cons_of_pos (by decide), List.filter_cons_of_neg (by decide),
    List.filter_eq_self.mpr hall]
  rw [show List.dropWhile (fun c => c = '0')
      ('0' :: (List.replicate z '0' ++ natReprAux (m + 1) m)) =
      List.dropWhile (fun c => c = '0')
      (List.replicate z '0' ++ natReprAux (m + 1) m) by simp [List.dropWhile]]
  exact count_zeros_then_digits z m h5 h6

theorem natReprAux_all_digits (fuel n : Nat) :
    ∀ c ∈ natReprAux fuel n, c.isDigit = true := by
  intro c hc
  obtain ⟨d, hd, rfl⟩ := natReprAux_digits fuel n c hc
  exact digitChar_isDigit d hd

theorem replicate_zero_digits (z : Nat) :
    ∀ c ∈ List.replicate z '0', c.isDigit = true := by
  intro c hc
  rw [List.eq_of_mem_replicate hc]
  decide

theorem sigDigitCount_fixed (sig e : Nat) (h5 : 10 ^ 5 ≤ sig) (h6 : sig < 10 ^ 6)
    (he : e ≤ 4) : sigDigitCount (renderFixed sig e) = 6 := by
  have hpow : (0:Nat) < 10 ^ (5 - e) := pow_pos (by norm_num) _
  simp only [renderFixed, sigDigitCount]
  set fp := sig % 10 ^ (5 - e) with hfp
  set ip := sig / 10 ^ (5 - e) with hip
  have hip1 : 10 ^ e ≤ ip := by
    rw [hip, Nat.le_div_iff_mul_le hpow]
    calc 10 ^ e * 10 ^ (5 - e) = 10 ^ 5 := by rw [← pow_add]; congr 1; omega
    _ ≤ sig := h5
  have hip2 : ip < 10 ^ (e + 1) := by
    rw [hip, Nat.div_lt_iff_lt_mul hpow]
    calc sig < 10 ^ 6 := h6
    _ = 10 ^ (e + 1) * 10 ^ (5 - e) := by rw [← pow_add]; congr 1; omega
  have hfuel : e + 1 ≤ ip + 1 := by
    have h1 : e < 10 ^ e := Nat.lt_pow_self (by norm_num) e
    omega
  have hlen_ip : (natReprAux (ip + 1) ip).length = e + 1 :=
    natReprAux_length e (ip + 1) ip hip1 hip2 hfuel
  obtain ⟨cs, hcs⟩ := natReprAux_head e (ip + 1) ip hip1 hip2 hfuel
  have hld1 : ip / 10 ^ e ≠ 0 := by
    have : 1 ≤ ip / 10 ^ e := (Nat.one_le_div_iff (pow_pos (by norm_num) _)).mpr hip1
    omega
  have hld10 : ip / 10 ^ e < 10 := by
    rw [Nat.div_lt_iff_lt_mul (pow_pos (by norm_num) _)]
    calc ip < 10 ^ (e + 1) := hip2
    _ = 10 * 10 ^ e := by ring
  have hne : digitChar (ip / 10 ^ e) ≠ '0' := digitChar_ne_zero _ hld10 hld1
  have hfplt : fp < 10 ^ (5 - e) := Nat.mod_lt _ hpow
  have hL : (natReprAux (fp + 1) fp).length ≤ 5 - e :=
    natReprAux_length_le (5 - e) fp hfplt (by omega)
  have hdata : (natRepr ip ++ "." ++
      String.mk (List.replicate (5 - e - (natReprAux (fp + 1) fp).length) '0') ++
      natRepr fp).data
      = ((natReprAux (ip + 1) ip ++ ['.']) ++
          List.replicate (5 - e - (natReprAux (fp + 1) fp).length) '0') ++
          natReprAux (fp + 1) fp := rfl
  rw [hdata]
  rw [List.filter_append, List.filter_append, List.filter_append,
    List.filter_eq_self.mpr (natReprAux_all_digits (ip + 1) ip),
    List.filter_eq_self.mpr (replicate_zero_digits _),
    List.filter_eq_self.mpr (natReprAux_all_digits (fp + 1) fp),
    show List.filter Char.isDigit ['.'] = [] from rfl,
    List.append_nil]
  rw [hcs, List.cons_append, List.cons_append]
  rw [List.dropWhile, decide_eq_false hne]
  show (digitChar (ip / 10 ^ e) ::
    ((cs ++ List.replicate (5 - e - (natReprAux (fp + 1) fp).length) '0') ++
      natReprAux (fp + 1) fp)).length = 6
  rw [hcs] at hlen_ip
  simp only [List.length_cons, List.length_append, List.length_replicate] at hlen_ip ⊢
  omega

theorem roundSig_bounds (ns d : Nat) (h7 : 7 ≤ d)
    (h1 : 10 ^ (d - 1) ≤ ns) (h2 : ns < 10 ^ d) :
    10 ^ 5 ≤ (roundSig ns d).1 ∧ (roundSig ns d).1 < 10 ^ 6 ∧
      (roundSig ns d).2 ≤ d - 6 := by
  have hpow : (0:Nat) < 10 ^ (d - 6) := pow_pos (by norm_num) _
  have hq1 : 10 ^ 5 ≤ ns / 10 ^ (d - 6) := by
    rw [Nat.le_div_iff_mul_le hpow]
    calc 10 ^ 5 * 10 ^ (d - 6) = 10 ^ (d - 1) := by rw [← pow_add]; congr 1; omega
    _ ≤ ns := h1
  have hq2 : ns / 10 ^ (d - 6) < 10 ^ 6 := by
    rw [Nat.div_lt_iff_lt_mul hpow]
    calc ns < 10 ^ d := h2
    _ = 10 ^ 6 * 10 ^ (d - 6) := by rw [← pow_add]; congr 1; omega
  simp only [roundSig]
  by_cases hr : 10 ^ (d - 6) ≤ 2 * (ns % 10 ^ (d - 6))
  · rw [if_pos hr]
    by_cases hov : ns / 10 ^ (d - 6) + 1 = 10 ^ 6
    · rw [if_pos hov]
      refine ⟨by norm_num, by norm_num, by omega⟩
    · rw [if_neg hov]
      exact ⟨le_trans hq1 (Nat.le_succ _), by omega, by omega⟩
  · rw [if_neg hr]
    by_cases hov : ns / 10 ^ (d - 6) = 10 ^ 6
    · exact absurd hov (by omega)
    · rw [if_neg hov]
      exact ⟨hq1, hq2, by omega⟩

theorem msPrec6_sigDigits (ns : Nat) (h0 : 0 < ns) (h9 : ns < 10 ^ 9) :
    sigDigitCount (msPrec6 ns) = 6 := by
  obtain ⟨k, hk1, hk2⟩ := exists_length_interval ns (by omega)
  have hfuel : k + 1 ≤ ns + 1 := by
    have := Nat.lt_pow_self (by norm_num : (1:Nat) < 10) k
    omega
  have hd : (natReprAux (ns + 1) ns).length = k + 1 :=
    natReprAux_length k (ns + 1) ns hk1 hk2 hfuel
  have hk8 : k ≤ 8 := by
    have hlt : 10 ^ k < 10 ^ 9 := lt_of_le_of_lt hk1 h9
    have := (Nat.pow_lt_pow_iff_right (by norm_num : (1:Nat) < 10)).mp hlt
    omega
  unfold msPrec6
  rw [if_neg (by omega : ¬ ns = 0), hd]
  by_cases hk : k + 1 ≤ 6
  · rw [if_pos hk]
    have hm1 : 10 ^ 5 ≤ ns * 10 ^ (6 - (k + 1)) := by
      calc 10 ^ 5 = 10 ^ k * 10 ^ (6 - (k + 1)) := by rw [← pow_add]; congr 1; omega
      _ ≤ ns * 10 ^ (6 - (k + 1)) := Nat.mul_le_mul_right _ hk1
    have hm2 : ns * 10 ^ (6 - (k + 1)) < 10 ^ 6 := by
      calc ns * 10 ^ (6 - (k + 1)) < 10 ^ (k + 1) * 10 ^ (6 - (k + 1)) :=
        (Nat.mul_lt_mul_right (pow_pos (by norm_num) _)).mpr hk2
      _ = 10 ^ 6 := by rw [← pow_add]; congr 1; omega
    exact sigDigitCount_small _ _ hm1 hm2
  · rw [if_neg hk]
    have h7 : 7 ≤ k + 1 := by omega
    have hb := roundSig_bounds ns (k + 1) h7 (by simpa using hk1) hk2
    exact sigDigitCount_fixed _ _ hb.1 hb.2.1 (le_trans hb.2.2 (by omega))

/-- C8: `formatDuration` renders the millisecond part with six significant
digits (for a zero nanosecond part, as `"0.00000"`), chooses the
`"<ns>ms"` / `"<s>sec <ns>ms"` / `"<m>min <s>sec <ns>ms"` /
`"<h>hr <m>min <s>sec <ns>ms"` shape by the whole-second thresholds
1, 60, 3600, and produces the four concrete example strings. -/
theorem C8_formatDuration_rendering :
    (∀ ws ns, ns < 10 ^ 9 →
      (0 < ns → sigDigitCount (msPrec6 ns) = 6) ∧
      (ns = 0 → msPrec6 ns = "0.00000") ∧
      (ws < 1 → formatDuration (ws, ns) = msPrec6 ns ++ "ms") ∧
      (1 ≤ ws → ws < 60 → formatDuration (ws, ns) =
        natRepr ws ++ "sec " ++ (msPrec6 ns ++ "ms")) ∧
      (60 ≤ ws → ws < 3600 → formatDuration (ws, ns) =
        natRepr (ws / 60) ++ "min " ++ natRepr (ws % 60) ++ "sec " ++
          (msPrec6 ns ++ "ms")) ∧
      (3600 ≤ ws → formatDuration (ws, ns) =
        natRepr (ws / 3600) ++ "hr " ++ natRepr (ws % 3600 / 60) ++ "min " ++
          natRepr (ws % 3600 % 60) ++ "sec " ++ (msPrec6 ns ++ "ms"))) ∧
    formatDuration (0, 4567000) = "4.56700ms" ∧
    formatDuration (3, 4567000) = "3sec 4.56700ms" ∧
    formatDuration (125, 0) = "2min 5sec 0.00000ms" ∧
    formatDuration (3725, 0) = "1hr 2min 5sec 0.00000ms" := by
  refine ⟨?_, by decide, by decide, by decide, by decide⟩
  intro ws ns h9
  refine ⟨fun h0 => msPrec6_sigDigits ns h0 h9, fun h0 => by subst h0; rfl, ?_, ?_, ?_, ?_⟩
  · intro hlt
    have hws : ws = 0 := by omega
    subst hws
    rfl
  · intro h1 h2
    simp only [formatDuration]
    rw [if_neg (by omega : ¬ ws < 1), if_pos h2]
  · intro h1 h2
    simp only [formatDuration]
    rw [if_neg (by omega : ¬ ws < 1), if_neg (by omega : ¬ ws < 60),
      if_pos (by omega : ws < 60 * 60)]
  · intro h1
    simp only [formatDuration]
    rw [if_neg (by omega : ¬ ws < 1), if_neg (by omega : ¬ ws < 60),
      if_neg (by omega : ¬ ws < 60 * 60)]

/-- Witness for C8 at the nine-digit nanosecond count `123456789`. -/
theorem C8_witness :
    (0:Nat) < 123456789 ∧ (123456789:Nat) < 10 ^ 9 ∧
    sigDigitCount (msPrec6 123456789) = 6 :=
  ⟨by decide, by decide,
    (C8_formatDuration_rendering.1 0 123456789 (by decide)).1 (by decide)⟩
